import Mathlib

/-!
Shallow embedding of `src/src/h3lib/lib/vertex.c` (H3 cell-vertex functions).

The file under verification depends on external collaborators that live in
other translation units of the library (`h3Index.h` bit macros, `baseCells.c`
lookups, `algos.c` neighbor stepping, `faceijk.c` projection).  Those are not
part of the source under verification, so they are abstracted into an `H3Env`
record of opaque functions; theorems quantify over every environment, with
hypotheses recording only the contracts the specification states for the
collaborators (e.g. rotation counts lie in `[0,5]`).  Machine integers are
modelled as `Nat`/`Int`: every C `int` value manipulated by this file stays
far below any overflow boundary, and each definition notes where C truncated
division agrees with the Lean operation on the reachable value ranges.
-/

/-- C `Direction` enum value `CENTER_DIGIT` (the center, no direction). -/
def CENTER_DIGIT : Nat := 0

/-- C `Direction` enum value `K_AXES_DIGIT` (deleted axis on pentagons). -/
def K_AXES_DIGIT : Nat := 1

/-- C `Direction` enum value `J_AXES_DIGIT`. -/
def J_AXES_DIGIT : Nat := 2

/-- C `Direction` enum value `JK_AXES_DIGIT`. -/
def JK_AXES_DIGIT : Nat := 3

/-- C `Direction` enum value `I_AXES_DIGIT`. -/
def I_AXES_DIGIT : Nat := 4

/-- C `Direction` enum value `IK_AXES_DIGIT`. -/
def IK_AXES_DIGIT : Nat := 5

/-- C `Direction` enum value `IJ_AXES_DIGIT`. -/
def IJ_AXES_DIGIT : Nat := 6

/-- C `Direction` enum value `INVALID_DIGIT`. -/
def INVALID_DIGIT : Nat := 7

/-- `NUM_DIGITS`: number of valid digits (directions 0..6). -/
def NUM_DIGITS : Nat := 7

/-- `NUM_HEX_VERTS`: a hexagon cell has 6 vertices. -/
def NUM_HEX_VERTS : Nat := 6

/-- `NUM_PENT_VERTS`: a pentagon cell has 5 vertices. -/
def NUM_PENT_VERTS : Nat := 5

/-- `NUM_PENTAGONS`: there are 12 pentagon base cells. -/
def NUM_PENTAGONS : Nat := 12

/-- `DIRECTION_INDEX_OFFSET` from vertex.c line 31. -/
def DIRECTION_INDEX_OFFSET : Nat := 2

/-- `INVALID_VERTEX_NUM` sentinel (vertex.h): an invalid vertex number. -/
def INVALID_VERTEX_NUM : Int := -1

/-- `H3_NULL`: the null H3 index. -/
def H3_NULL : Nat := 0

/-- Modelled from the spec: the packed-index mode-tag value for an ordinary
cell ("mode tag (cell vs. vertex)", spec 3); `h3Index.h` is not under src/.
The numeric values follow the library's published encoding. -/
def H3_HEXAGON_MODE : Nat := 1

/-- Modelled from the spec: the packed-index mode-tag value for a vertex
identity ("a cell index whose mode tag is set to vertex", spec 3). -/
def H3_VERTEX_MODE : Nat := 4

/-- Modelled from the spec: `H3_SET_MODE` of `h3Index.h` (not under src/).
The spec describes the packed index as a 64-bit integer with a mode-tag
field and a small reserved field; we place the 3-bit reserved field at bits
56..58 and the 4-bit mode tag at bits 59..62 as in the library's encoding,
and model the field update arithmetically: keep bits 0..58, keep bits 63..
(written as `h3 / 2 ^ 63 * 16` blocks of `2 ^ 59`), replace the mode field. -/
def H3_SET_MODE (h3 : Nat) (m : Nat) : Nat :=
  h3 % 2 ^ 59 + (m % 16 + h3 / 2 ^ 63 * 16) * 2 ^ 59

/-- Modelled from the spec: `H3_SET_RESERVED_BITS` of `h3Index.h` (not under
src/): keep bits 0..55, keep bits 59.., replace the 3-bit reserved field.
The C macro casts the `int` argument to `uint64_t` and ORs it into the
cleared field; for the corner numbers `0..6` this file actually stores, that
coincides with adding the value shifted into the field, which is what we
model (the argument is reduced Euclid-mod 8 so the definition is total);
bits 59.. are kept as `h3 / 2 ^ 59 * 8` blocks of `2 ^ 56`. -/
def H3_SET_RESERVED_BITS (h3 : Nat) (v : Int) : Nat :=
  h3 % 2 ^ 56 + ((v % 8).toNat + h3 / 2 ^ 59 * 8) * 2 ^ 56

/-- Modelled from the spec: `H3_GET_RESERVED_BITS` of `h3Index.h` (not under
src/): read the 3-bit reserved field at bits 56..58. -/
def H3_GET_RESERVED_BITS (h3 : Nat) : Nat :=
  h3 / 2 ^ 56 % 8

/-- Modelled from the spec: `H3_GET_MODE` of `h3Index.h` (not under src/):
read the 4-bit mode field at bits 59..62. -/
def H3_GET_MODE (h3 : Nat) : Nat :=
  h3 / 2 ^ 59 % 16

/-- `PentagonDirectionFaces` (vertex.h): a pentagon base cell together with
the faces of its five non-center directions, in directional order starting
at `J_AXES_DIGIT`. -/
structure PentagonDirectionFaces where
  baseCell : Nat
  faces : List Nat
deriving DecidableEq

/-- The static `pentagonDirectionFaces` table, vertex.c lines 38-45. -/
def pentagonDirectionFaces : List PentagonDirectionFaces :=
  [⟨4, [4, 0, 2, 1, 3]⟩, ⟨14, [6, 11, 2, 7, 1]⟩,
   ⟨24, [5, 10, 1, 6, 0]⟩, ⟨38, [7, 12, 3, 8, 2]⟩,
   ⟨49, [9, 14, 0, 5, 4]⟩, ⟨58, [8, 13, 4, 9, 3]⟩,
   ⟨63, [11, 6, 15, 10, 16]⟩, ⟨72, [12, 7, 16, 11, 17]⟩,
   ⟨83, [10, 5, 19, 14, 15]⟩, ⟨97, [13, 8, 17, 12, 18]⟩,
   ⟨107, [14, 9, 18, 13, 19]⟩, ⟨117, [15, 19, 17, 18, 16]⟩]

/-- The linear scan of vertex.c lines 68-73: the first table entry whose
`baseCell` field equals the given base cell, if any. -/
def findPentagonDirFaces (baseCell : Nat) : Option PentagonDirectionFaces :=
  pentagonDirectionFaces.find? fun p => p.baseCell == baseCell

/-- Stand-in for the value of the uninitialized local `dirFaces` in
`vertexRotations` when the scan finds no entry (never the case for a
pentagon base cell, see the coverage theorem below). -/
def uninitializedDirFaces : PentagonDirectionFaces :=
  ⟨0, []⟩

/-- The `dirFaces` local of `vertexRotations` after the lookup loop. -/
def vrDirFaces (baseCell : Nat) : PentagonDirectionFaces :=
  (findPentagonDirFaces baseCell).getD uninitializedDirFaces

/-- Modelled from the spec: `_isBaseCellPentagon` of `baseCells.c` (not under
src/).  The spec fixes exactly 12 pentagon base cells ("one entry per of the
12 pentagon base cells", spec 3); their identities are the library's base-cell
data. -/
def specIsBaseCellPentagon (baseCell : Nat) : Bool :=
  [4, 14, 24, 38, 49, 58, 63, 72, 83, 97, 107, 117].contains baseCell

/-- Modelled from the spec: the external collaborators consumed by vertex.c
(spec 6, "Consumed (external collaborators)").  Each field abstracts one
function from another translation unit; only the parts vertex.c reads are
kept (for `_h3ToFaceIjk` and `_baseCellToFaceIjk` only the `.face` member of
the produced `FaceIJK` is ever used by this file).  `h3NeighborRotations`
drops its in-out rotation count parameter, which vertex.c ignores. -/
structure H3Env where
  h3ToFace : Nat → Nat
  h3GetBaseCell : Nat → Nat
  h3LeadingNonZeroDigit : Nat → Nat
  baseCellToFace : Nat → Nat
  baseCellToCCWrot60 : Nat → Nat → Nat
  isBaseCellPentagon : Nat → Bool
  isBaseCellPolarPentagon : Nat → Bool
  h3IsPentagon : Nat → Bool
  h3NeighborRotations : Nat → Nat → Nat
  directionForNeighbor : Nat → Nat → Nat

/-- The value of the `ccwRot60` local of `vertexRotations` (vertex.c lines
63-81) right after the "additional CCW rotation for polar neighbors or IK
neighbors" block, inside the pentagon-adjustment branch. -/
def vrPentFirstAdjust (env : H3Env) (cell : Nat) : Nat :=
  let face := env.h3ToFace cell
  let baseCell := env.h3GetBaseCell cell
  let dirFaces := vrDirFaces baseCell
  let ccwRot60 := env.baseCellToCCWrot60 baseCell face
  if face ≠ env.baseCellToFace baseCell ∧
      (env.isBaseCellPolarPentagon baseCell = true ∨
        face = dirFaces.faces.getD (IK_AXES_DIGIT - DIRECTION_INDEX_OFFSET) 0)
  then (ccwRot60 + 1) % 6
  else ccwRot60

/-- `vertexRotations`, vertex.c lines 52-97: number of CCW rotations of the
cell's vertex numbers compared to the directional layout of its neighbors. -/
def vertexRotations (env : H3Env) (cell : Nat) (adjustForPentagon : Bool) : Nat :=
  let face := env.h3ToFace cell
  let baseCell := env.h3GetBaseCell cell
  let cellLeadingDigit := env.h3LeadingNonZeroDigit cell
  if adjustForPentagon && env.isBaseCellPentagon baseCell then
    let dirFaces := vrDirFaces baseCell
    let ccwRot60 := vrPentFirstAdjust env cell
    if cellLeadingDigit = JK_AXES_DIGIT ∧
        face = dirFaces.faces.getD (IK_AXES_DIGIT - DIRECTION_INDEX_OFFSET) 0
    then (ccwRot60 + 5) % 6
    else if cellLeadingDigit = IK_AXES_DIGIT ∧
        face = dirFaces.faces.getD (JK_AXES_DIGIT - DIRECTION_INDEX_OFFSET) 0
    then (ccwRot60 + 1) % 6
    else ccwRot60
  else env.baseCellToCCWrot60 baseCell face

/-- `directionToVertexNumHex` table, vertex.c lines 102-103:
`{INVALID_DIGIT, 3, 1, 2, 5, 4, 0}` indexed by direction. -/
def directionToVertexNumHex : Nat → Nat
  | 0 => INVALID_DIGIT
  | 1 => 3
  | 2 => 1
  | 3 => 2
  | 4 => 5
  | 5 => 4
  | 6 => 0
  | _ => INVALID_DIGIT

/-- `directionToVertexNumPent` table, vertex.c lines 108-109:
`{INVALID_DIGIT, INVALID_DIGIT, 1, 2, 4, 3, 0}` indexed by direction. -/
def directionToVertexNumPent : Nat → Nat
  | 0 => INVALID_DIGIT
  | 1 => INVALID_DIGIT
  | 2 => 1
  | 3 => 2
  | 4 => 4
  | 5 => 3
  | 6 => 0
  | _ => INVALID_DIGIT

/-- `vertexNumForDirection`, vertex.c lines 118-138.  Directions are the C
enum values `0..7`; the result is the first topological vertex number for
the direction, or `INVALID_VERTEX_NUM`.  On the branch actually taken the C
`int` expression `(table + NUM_*_VERTS - rotations) % NUM_*_VERTS` is
non-negative whenever `rotations ≤ NUM_HEX_VERTS`, where the Lean `Nat`
arithmetic below coincides with it. -/
def vertexNumForDirection (env : H3Env) (origin : Nat) (direction : Nat) : Int :=
  let isPentagon := env.h3IsPentagon origin
  if direction = CENTER_DIGIT ∨ INVALID_DIGIT ≤ direction ∨
      (isPentagon = true ∧ direction = K_AXES_DIGIT) then
    INVALID_VERTEX_NUM
  else
    let rotations := vertexRotations env origin true
    if isPentagon then
      ((directionToVertexNumPent direction + NUM_PENT_VERTS - rotations) % NUM_PENT_VERTS : Nat)
    else
      ((directionToVertexNumHex direction + NUM_HEX_VERTS - rotations) % NUM_HEX_VERTS : Nat)

/-- `vertexNumToDirectionHex` table, vertex.c lines 142-144. -/
def vertexNumToDirectionHex : Nat → Nat
  | 0 => IJ_AXES_DIGIT
  | 1 => J_AXES_DIGIT
  | 2 => JK_AXES_DIGIT
  | 3 => K_AXES_DIGIT
  | 4 => IK_AXES_DIGIT
  | _ => I_AXES_DIGIT

/-- `vertexNumToDirectionPent` table, vertex.c lines 148-149. -/
def vertexNumToDirectionPent : Nat → Nat
  | 0 => IJ_AXES_DIGIT
  | 1 => J_AXES_DIGIT
  | 2 => JK_AXES_DIGIT
  | 3 => IK_AXES_DIGIT
  | _ => I_AXES_DIGIT

/-- `directionForVertexNum`, vertex.c lines 157-172.  The C `vertexNum`
parameter is an `int`, kept as `Int` so the `vertexNum < 0` guard is
meaningful; past the guard `0 ≤ vertexNum`, where Euclidean and C remainder
agree. -/
def directionForVertexNum (env : H3Env) (origin : Nat) (vertexNum : Int) : Nat :=
  let isPentagon := env.h3IsPentagon origin
  if vertexNum < 0 ∨
      ((if isPentagon then (NUM_PENT_VERTS : Int) else (NUM_HEX_VERTS : Int)) - 1) < vertexNum then
    INVALID_DIGIT
  else
    let rotations := vertexRotations env origin true
    if isPentagon then
      vertexNumToDirectionPent ((vertexNum + rotations) % (NUM_PENT_VERTS : Int)).toNat
    else
      vertexNumToDirectionHex ((vertexNum + rotations) % (NUM_HEX_VERTS : Int)).toNat

/-- `neighborVertexes` table, vertex.c lines 177-178: origin vertex number to
(left vertex, right vertex) in the neighbor's frame, same orientation. -/
def neighborVertexes : Nat → Nat × Nat
  | 0 => (4, 2)
  | 1 => (5, 3)
  | 2 => (0, 4)
  | 3 => (1, 5)
  | 4 => (2, 0)
  | _ => (3, 1)

/-- The `originNumVerts` local of `getCellVertex` (vertex.c line 188). -/
def gcvNumVerts (env : H3Env) (origin : Nat) : Nat :=
  if env.h3IsPentagon origin then NUM_PENT_VERTS else NUM_HEX_VERTS

/-- The `left` direction of `getCellVertex` (vertex.c line 191). -/
def gcvLeft (env : H3Env) (origin : Nat) (vertexNum : Int) : Nat :=
  directionForVertexNum env origin vertexNum

/-- The `leftNeighbor` of `getCellVertex` (vertex.c line 194). -/
def gcvLeftNeighbor (env : H3Env) (origin : Nat) (vertexNum : Int) : Nat :=
  env.h3NeighborRotations origin (gcvLeft env origin vertexNum)

/-- The `right` direction of `getCellVertex` (vertex.c lines 199-200).  The C
operand order `vertexNum - 1 + originNumVerts` is kept; the expression is
only ever evaluated on `0 ≤ vertexNum`, where Euclidean and C remainder
agree. -/
def gcvRight (env : H3Env) (origin : Nat) (vertexNum : Int) : Nat :=
  directionForVertexNum env origin
    ((vertexNum - 1 + (gcvNumVerts env origin : Int)) % (gcvNumVerts env origin : Int))

/-- The `rightNeighbor` of `getCellVertex` (vertex.c line 203). -/
def gcvRightNeighbor (env : H3Env) (origin : Nat) (vertexNum : Int) : Nat :=
  env.h3NeighborRotations origin (gcvRight env origin vertexNum)

/-- The `owner` of `getCellVertex` (vertex.c lines 207-209): start from the
origin, replace by each neighbor that compares smaller. -/
def gcvOwner (env : H3Env) (origin : Nat) (vertexNum : Int) : Nat :=
  let owner := origin
  let owner := if gcvLeftNeighbor env origin vertexNum < owner then
    gcvLeftNeighbor env origin vertexNum else owner
  if gcvRightNeighbor env origin vertexNum < owner then
    gcvRightNeighbor env origin vertexNum else owner

/-- The `isSimpleCase` test of `getCellVertex` (vertex.c lines 223-224). -/
def gcvIsSimpleCase (env : H3Env) (origin owner : Nat) : Bool :=
  !env.h3IsPentagon owner && !env.h3IsPentagon origin &&
    (env.h3ToFace origin == env.h3ToFace owner)

/-- The general (non-fast-path) owner vertex number when the owner is the
left neighbor, vertex.c lines 230-237: second vertex of the shared edge,
wrapping per the C condition
`(ownerIsPentagon && ownerVertexNum == NUM_PENT_VERTS) || ownerVertexNum == NUM_HEX_VERTS`. -/
def gcvGeneralLeftVertexNum (env : H3Env) (owner origin : Nat) : Int :=
  let dir := env.directionForNeighbor owner origin
  let ownerVertexNum := vertexNumForDirection env owner dir + 1
  if (env.h3IsPentagon owner = true ∧ ownerVertexNum = (NUM_PENT_VERTS : Int)) ∨
      ownerVertexNum = (NUM_HEX_VERTS : Int) then 0
  else ownerVertexNum

/-- The general (non-fast-path) owner vertex number when the owner is the
right neighbor, vertex.c lines 243-244. -/
def gcvGeneralRightVertexNum (env : H3Env) (owner origin : Nat) : Int :=
  vertexNumForDirection env owner (env.directionForNeighbor owner origin)

/-- The `ownerVertexNum` local of `getCellVertex` (vertex.c lines 212-247). -/
def gcvOwnerVertexNum (env : H3Env) (origin : Nat) (vertexNum : Int) : Int :=
  let owner := gcvOwner env origin vertexNum
  if owner ≠ origin then
    if owner = gcvLeftNeighbor env origin vertexNum then
      if gcvIsSimpleCase env origin owner then ((neighborVertexes vertexNum.toNat).1 : Int)
      else gcvGeneralLeftVertexNum env owner origin
    else if owner = gcvRightNeighbor env origin vertexNum then
      if gcvIsSimpleCase env origin owner then ((neighborVertexes vertexNum.toNat).2 : Int)
      else gcvGeneralRightVertexNum env owner origin
    else vertexNum
  else vertexNum

/-- `getCellVertex`, vertex.c lines 186-255: a single vertex of a cell as an
H3 index, or `H3_NULL` if the vertex is invalid. -/
def getCellVertex (env : H3Env) (origin : Nat) (vertexNum : Int) : Nat :=
  if gcvLeft env origin vertexNum = INVALID_DIGIT then H3_NULL
  else if gcvRight env origin vertexNum = INVALID_DIGIT then H3_NULL
  else
    H3_SET_RESERVED_BITS
      (H3_SET_MODE (gcvOwner env origin vertexNum) H3_VERTEX_MODE)
      (gcvOwnerVertexNum env origin vertexNum)

/-- `getCellVertexes`, vertex.c lines 262-268: all six vertex slots. -/
def getCellVertexes (env : H3Env) (origin : Nat) : List Nat :=
  (List.range NUM_HEX_VERTS).map fun i => getCellVertex env origin (i : Int)

/-- The decode step of `vertexToPoint`, vertex.c line 277: the vertex number
stored in a vertex identity. -/
def vertexToVertexNum (vertex : Nat) : Nat :=
  H3_GET_RESERVED_BITS vertex

/-- The decode step of `vertexToPoint`, vertex.c lines 278-280: recover the
owner cell by resetting the mode tag and clearing the reserved field. -/
def vertexToOwner (vertex : Nat) : Nat :=
  H3_SET_RESERVED_BITS (H3_SET_MODE vertex H3_HEXAGON_MODE) 0

/-- Modelled from the spec: the axis opposite a direction.  Used to state
the distortion-free same-face adjacency contract of the external
`directionBetweenNeighbors` / `h3NeighborRotations` collaborators (spec 4.3:
on one face with no pentagon distortion the two cells see each other along
opposite axes). -/
def oppositeDirection : Nat → Nat
  | 1 => 6
  | 2 => 5
  | 3 => 4
  | 4 => 3
  | 5 => 2
  | 6 => 1
  | d => d

/-- Modelled from the spec: the contracts of the external collaborators that
the theorems rely on.  `rot_lt` is spec 4.1 ("Output: an integer rotation
count in [0,5]") for the base-cell rotation lookup; `pent_spec` ties the
abstract pentagon test to the spec's fixed set of 12 pentagon base cells. -/
structure H3EnvOk (env : H3Env) : Prop where
  rot_lt : ∀ b f, env.baseCellToCCWrot60 b f < 6
  pent_spec : ∀ b, env.isBaseCellPentagon b = specIsBaseCellPentagon b

/-- A basic concrete environment for witnesses: every cell projects to face
0 of base cell 0, stepping in any direction stays on the same cell, and the
pentagon data follow the spec's tables. -/
def env0 : H3Env where
  h3ToFace := fun _ => 0
  h3GetBaseCell := fun _ => 0
  h3LeadingNonZeroDigit := fun _ => 0
  baseCellToFace := fun _ => 0
  baseCellToCCWrot60 := fun _ _ => 0
  isBaseCellPentagon := specIsBaseCellPentagon
  isBaseCellPolarPentagon := fun b => b == 4 || b == 117
  h3IsPentagon := fun _ => false
  h3NeighborRotations := fun c _ => c
  directionForNeighbor := fun _ _ => 0

/-- Witness environment for the general-path corner computation: every step
lands on cell 0, the origin and cell 0 project to different faces, and the
direction from any cell back to any other is the J axis. -/
def envC3 : H3Env :=
  { env0 with
      h3NeighborRotations := fun _ _ => 0
      h3ToFace := fun c => if 0 < c then 1 else 0
      directionForNeighbor := fun _ _ => J_AXES_DIGIT }

/-- Witness environment for path agreement: every step lands on cell 0, all
cells share face 0, and the direction from any cell back to any other is the
K axis (the opposite of the IJ axis used to step out). -/
def envC4 : H3Env :=
  { env0 with
      h3NeighborRotations := fun _ _ => 0
      directionForNeighbor := fun _ _ => K_AXES_DIGIT }

/-- Witness environment with a pentagon cell at index 7. -/
def envC5 : H3Env :=
  { env0 with h3IsPentagon := fun c => c == 7 }

/-- Witness environment for the polar-pentagon rotation adjustment: base
cell 4 (a polar pentagon), current face 1, home face 0. -/
def envC7 : H3Env :=
  { env0 with
      h3GetBaseCell := fun _ => 4
      h3ToFace := fun _ => 1
      baseCellToFace := fun _ => 0 }

/-- Witness environment for the deleted-subsequence rotation adjustment:
base cell 4 on its home face 1... the current face equals the IK-axis face
entry of base cell 4 (face 1) and the leading digit is the JK axis. -/
def envC8 : H3Env :=
  { env0 with
      h3GetBaseCell := fun _ => 4
      h3ToFace := fun _ => 1
      baseCellToFace := fun _ => 1
      h3LeadingNonZeroDigit := fun _ => JK_AXES_DIGIT }

/-- The polar/IK adjustment keeps the rotation count below 6 whenever the
base-cell rotation lookup does. -/
theorem vrPentFirstAdjust_lt (env : H3Env) (cell : Nat)
    (hrot : ∀ b f, env.baseCellToCCWrot60 b f < 6) :
    vrPentFirstAdjust env cell < 6 := by
  simp only [vrPentFirstAdjust]
  split
  · exact Nat.mod_lt _ (by omega)
  · exact hrot _ _

/-- `vertexRotations` always returns a value in `[0,5]` for an environment
whose base-cell rotation lookup does. -/
theorem vertexRotations_lt (env : H3Env) (cell : Nat) (adjustForPentagon : Bool)
    (hrot : ∀ b f, env.baseCellToCCWrot60 b f < 6) :
    vertexRotations env cell adjustForPentagon < 6 := by
  simp only [vertexRotations]
  split
  · split
    · exact Nat.mod_lt _ (by omega)
    · split
      · exact Nat.mod_lt _ (by omega)
      · exact vrPentFirstAdjust_lt env cell hrot
  · exact hrot _ _

/-- Every pentagon base cell has an entry in `pentagonDirectionFaces`. -/
theorem findPentagonDirFaces_isSome_of_mem (b : Nat)
    (hb : specIsBaseCellPentagon b = true) :
    (findPentagonDirFaces b).isSome = true := by
  have hmem : b = 4 ∨ b = 14 ∨ b = 24 ∨ b = 38 ∨ b = 49 ∨ b = 58 ∨ b = 63 ∨
      b = 72 ∨ b = 83 ∨ b = 97 ∨ b = 107 ∨ b = 117 := by
    simpa [specIsBaseCellPentagon, List.contains_eq_any_beq, List.any_eq_true,
      Nat.beq_eq_true_eq] using hb
  rcases hmem with h | h | h | h | h | h | h | h | h | h | h | h <;> subst h <;> rfl

/-- The hexagon vertex-to-direction table only produces usable directions. -/
theorem vertexNumToDirectionHex_valid (k : Nat) (hk : k < 6) :
    vertexNumToDirectionHex k ≠ 0 ∧ vertexNumToDirectionHex k < 7 := by
  interval_cases k <;> decide

/-- The pentagon vertex-to-direction table only produces usable directions
and never the deleted K axis. -/
theorem vertexNumToDirectionPent_valid (k : Nat) (hk : k < 5) :
    vertexNumToDirectionPent k ≠ 0 ∧ vertexNumToDirectionPent k < 7 ∧
      vertexNumToDirectionPent k ≠ 1 := by
  interval_cases k <;> decide

/-- The two hexagon tables are inverse permutations. -/
theorem directionToVertexNumHex_leftInv (k : Nat) (hk : k < 6) :
    directionToVertexNumHex (vertexNumToDirectionHex k) = k := by
  interval_cases k <;> rfl

/-- The two pentagon tables are inverse permutations. -/
theorem directionToVertexNumPent_leftInv (k : Nat) (hk : k < 5) :
    directionToVertexNumPent (vertexNumToDirectionPent k) = k := by
  interval_cases k <;> rfl

/-- `directionForVertexNum` on a hexagon with an in-range vertex number is
the table lookup at the rotated index. -/
theorem directionForVertexNum_hex (env : H3Env) (origin : Nat) (v : Int)
    (hp : env.h3IsPentagon origin = false) (h0 : 0 ≤ v) (h6 : v < 6) :
    directionForVertexNum env origin v =
      vertexNumToDirectionHex ((v + (vertexRotations env origin true : Int)) % 6).toNat := by
  unfold directionForVertexNum
  simp only [hp, if_false, Bool.false_eq_true, NUM_PENT_VERTS, NUM_HEX_VERTS]
  rw [if_neg (by omega)]
  norm_num

/-- `directionForVertexNum` on a pentagon with an in-range vertex number is
the table lookup at the rotated index. -/
theorem directionForVertexNum_pent (env : H3Env) (origin : Nat) (v : Int)
    (hp : env.h3IsPentagon origin = true) (h0 : 0 ≤ v) (h5 : v < 5) :
    directionForVertexNum env origin v =
      vertexNumToDirectionPent ((v + (vertexRotations env origin true : Int)) % 5).toNat := by
  unfold directionForVertexNum
  simp only [hp, if_true, NUM_PENT_VERTS, NUM_HEX_VERTS]
  rw [if_neg (by omega)]
  norm_num

/-- `vertexNumForDirection` on a hexagon with a usable direction is the table
lookup minus the rotation count. -/
theorem vertexNumForDirection_hex (env : H3Env) (origin : Nat) (d : Nat)
    (hp : env.h3IsPentagon origin = false) (hd0 : d ≠ 0) (hd7 : d < 7) :
    vertexNumForDirection env origin d =
      ((directionToVertexNumHex d + 6 - vertexRotations env origin true) % 6 : Nat) := by
  unfold vertexNumForDirection
  simp only [hp, CENTER_DIGIT, INVALID_DIGIT, K_AXES_DIGIT, NUM_HEX_VERTS,
    Bool.false_eq_true, false_and, or_false]
  rw [if_neg (by omega)]
  simp

/-- `vertexNumForDirection` on a pentagon with a usable direction is the
table lookup minus the rotation count. -/
theorem vertexNumForDirection_pent (env : H3Env) (origin : Nat) (d : Nat)
    (hp : env.h3IsPentagon origin = true) (hd0 : d ≠ 0) (hd7 : d < 7) (hd1 : d ≠ 1) :
    vertexNumForDirection env origin d =
      ((directionToVertexNumPent d + 5 - vertexRotations env origin true) % 5 : Nat) := by
  unfold vertexNumForDirection
  simp only [hp, CENTER_DIGIT, INVALID_DIGIT, K_AXES_DIGIT, NUM_PENT_VERTS, true_and]
  rw [if_neg (by omega)]
  simp

/-- Division of a field-packed sum extracts the upper part. -/
theorem h3_add_mul_div (a b n : Nat) (hn : 0 < n) (ha : a < n) : (a + b * n) / n = b := by
  rw [Nat.add_mul_div_right a b hn, Nat.div_eq_of_lt ha, Nat.zero_add]

/-- The Euclidean residue of an integer mod 8, as a natural, is below 8. -/
theorem emod8_toNat_lt (v : Int) : (v % 8).toNat < 8 := by
  have h1 : 0 ≤ v % 8 := Int.emod_nonneg v (by omega)
  have h2 : v % 8 < 8 := Int.emod_lt_of_pos v (by omega)
  omega

/-- Setting the mode field does not change the low 56 bits. -/
theorem setMode_mod56 (h3 m : Nat) : H3_SET_MODE h3 m % 2 ^ 56 = h3 % 2 ^ 56 := by
  unfold H3_SET_MODE
  rw [show (2 : Nat) ^ 59 = 8 * 2 ^ 56 by norm_num, ← Nat.mul_assoc,
    Nat.add_mul_mod_self_right, Nat.mod_mod_of_dvd h3 ⟨8, by norm_num⟩]

/-- The bits from 59 up after setting the mode field. -/
theorem setMode_div59 (h3 m : Nat) :
    H3_SET_MODE h3 m / 2 ^ 59 = m % 16 + h3 / 2 ^ 63 * 16 := by
  unfold H3_SET_MODE
  exact h3_add_mul_div _ _ _ (by norm_num) (Nat.mod_lt _ (by norm_num))

/-- Setting the reserved field does not change the low 56 bits. -/
theorem setRes_mod56 (h3 : Nat) (v : Int) :
    H3_SET_RESERVED_BITS h3 v % 2 ^ 56 = h3 % 2 ^ 56 := by
  unfold H3_SET_RESERVED_BITS
  rw [Nat.add_mul_mod_self_right, Nat.mod_mod_of_dvd h3 dvd_rfl]

/-- The bits from 56 up after setting the reserved field. -/
theorem setRes_div56 (h3 : Nat) (v : Int) :
    H3_SET_RESERVED_BITS h3 v / 2 ^ 56 = (v % 8).toNat + h3 / 2 ^ 59 * 8 := by
  unfold H3_SET_RESERVED_BITS
  exact h3_add_mul_div _ _ _ (by norm_num) (Nat.mod_lt _ (by norm_num))

/-- Setting the reserved field does not change the bits from 59 up. -/
theorem setRes_div59 (h3 : Nat) (v : Int) :
    H3_SET_RESERVED_BITS h3 v / 2 ^ 59 = h3 / 2 ^ 59 := by
  conv_lhs => rw [show (2 : Nat) ^ 59 = 2 ^ 56 * 8 by norm_num]
  rw [← Nat.div_div_eq_div_mul, setRes_div56]
  exact h3_add_mul_div _ _ _ (by norm_num) (emod8_toNat_lt v)

/-- Reading the reserved field back after writing it. -/
theorem getReserved_setReserved (h3 : Nat) (v : Int) :
    H3_GET_RESERVED_BITS (H3_SET_RESERVED_BITS h3 v) = (v % 8).toNat := by
  unfold H3_GET_RESERVED_BITS
  rw [setRes_div56, Nat.add_mul_mod_self_right, Nat.mod_eq_of_lt (emod8_toNat_lt v)]

/-- Encoding a vertex identity and decoding it recovers the owner cell,
provided the owner is in cell form (cell mode tag, cleared reserved field). -/
theorem vertexToOwner_encode (w : Nat) (v : Int)
    (hmode : H3_GET_MODE w = H3_HEXAGON_MODE)
    (hres : H3_GET_RESERVED_BITS w = 0) :
    vertexToOwner (H3_SET_RESERVED_BITS (H3_SET_MODE w H3_VERTEX_MODE) v) = w := by
  unfold H3_GET_MODE H3_HEXAGON_MODE at hmode
  unfold H3_GET_RESERVED_BITS at hres
  have hx56 : H3_SET_RESERVED_BITS (H3_SET_MODE w H3_VERTEX_MODE) v % 2 ^ 56 = w % 2 ^ 56 := by
    rw [setRes_mod56, setMode_mod56]
  have hx63 : H3_SET_RESERVED_BITS (H3_SET_MODE w H3_VERTEX_MODE) v / 2 ^ 63 = w / 2 ^ 63 := by
    conv_lhs => rw [show (2 : Nat) ^ 63 = 2 ^ 59 * 16 by norm_num]
    rw [← Nat.div_div_eq_div_mul, setRes_div59, setMode_div59,
      show H3_VERTEX_MODE % 16 = 4 from rfl]
    exact h3_add_mul_div 4 _ 16 (by norm_num) (by norm_num)
  unfold vertexToOwner
  rw [H3_SET_RESERVED_BITS, show ((0 : Int) % 8).toNat = 0 from rfl, setMode_mod56, hx56,
    setMode_div59, hx63, show H3_HEXAGON_MODE % 16 = 1 from rfl, Nat.zero_add]
  have hq : w / 2 ^ 56 = (1 + w / 2 ^ 63 * 16) * 8 := by
    conv_lhs => rw [← Nat.mod_add_div (w / 2 ^ 56) 8]
    rw [hres, Nat.zero_add, Nat.div_div_eq_div_mul,
      show (2 : Nat) ^ 56 * 8 = 2 ^ 59 by norm_num]
    conv_lhs => rw [← Nat.mod_add_div (w / 2 ^ 59) 16]
    rw [hmode, Nat.div_div_eq_div_mul, show (2 : Nat) ^ 59 * 16 = 2 ^ 63 by norm_num,
      Nat.mul_comm 16 (w / 2 ^ 63), Nat.mul_comm]
  conv_rhs => rw [← Nat.mod_add_div w (2 ^ 56)]
  rw [hq, Nat.mul_comm (2 ^ 56)]

/-- A vertex identity (vertex mode tag set) is never the null index. -/
theorem encodedVertex_ne_null (w : Nat) (v : Int) :
    H3_SET_RESERVED_BITS (H3_SET_MODE w H3_VERTEX_MODE) v ≠ H3_NULL := by
  intro h
  have h59 : H3_SET_RESERVED_BITS (H3_SET_MODE w H3_VERTEX_MODE) v / 2 ^ 59 =
      4 + w / 2 ^ 63 * 16 := by
    rw [setRes_div59, setMode_div59, show H3_VERTEX_MODE % 16 = 4 from rfl]
  rw [h] at h59
  simp [H3_NULL] at h59
  omega

/-- The owner computed by `getCellVertex` is the minimum of the origin and
its two stepped neighbors. -/
theorem gcvOwner_eq_min (env : H3Env) (origin : Nat) (v : Int) :
    gcvOwner env origin v =
      min (min origin (gcvLeftNeighbor env origin v)) (gcvRightNeighbor env origin v) := by
  simp only [gcvOwner, Nat.min_def]
  split_ifs <;> omega

/-- An in-range result of `directionForVertexNum` forces the vertex number
argument into the valid range for the cell's shape. -/
theorem directionForVertexNum_ne_invalid (env : H3Env) (origin : Nat) (v : Int)
    (h : directionForVertexNum env origin v ≠ INVALID_DIGIT) :
    0 ≤ v ∧ v < (if env.h3IsPentagon origin then (NUM_PENT_VERTS : Int) else NUM_HEX_VERTS) := by
  by_contra hc
  apply h
  unfold directionForVertexNum
  cases hp : env.h3IsPentagon origin <;>
    · simp only [hp] at hc ⊢
      rw [if_pos (by simp only [NUM_PENT_VERTS, NUM_HEX_VERTS] at hc ⊢; omega)]

/-- A valid vertex number always yields a usable direction: the lookup
tables never return `INVALID_DIGIT` on a valid rotated index. -/
theorem directionForVertexNum_valid (env : H3Env) (origin : Nat) (v : Int)
    (h0 : 0 ≤ v)
    (hv : v < (if env.h3IsPentagon origin then (NUM_PENT_VERTS : Int) else NUM_HEX_VERTS)) :
    directionForVertexNum env origin v ≠ INVALID_DIGIT := by
  cases hp : env.h3IsPentagon origin
  · rw [directionForVertexNum_hex env origin v hp h0 (by simp [hp, NUM_HEX_VERTS] at hv; omega)]
    have hk : ((v + (vertexRotations env origin true : Int)) % 6).toNat < 6 := by omega
    have := vertexNumToDirectionHex_valid _ hk
    simp only [INVALID_DIGIT]
    omega
  · rw [directionForVertexNum_pent env origin v hp h0 (by simp [hp, NUM_PENT_VERTS] at hv; omega)]
    have hk : ((v + (vertexRotations env origin true : Int)) % 5).toNat < 5 := by omega
    have := vertexNumToDirectionPent_valid _ hk
    simp only [INVALID_DIGIT]
    omega

/-- A non-sentinel result of `vertexNumForDirection` is a corner number in
range for the cell's shape. -/
theorem vertexNumForDirection_range (env : H3Env) (origin : Nat) (d : Nat)
    (h : vertexNumForDirection env origin d ≠ INVALID_VERTEX_NUM) :
    0 ≤ vertexNumForDirection env origin d ∧
      vertexNumForDirection env origin d <
        (if env.h3IsPentagon origin then (NUM_PENT_VERTS : Int) else NUM_HEX_VERTS) := by
  by_cases hc : d = CENTER_DIGIT ∨ INVALID_DIGIT ≤ d ∨
      (env.h3IsPentagon origin = true ∧ d = K_AXES_DIGIT)
  · exfalso
    apply h
    simp only [vertexNumForDirection]
    rw [if_pos hc]
  · push_neg at hc
    simp only [CENTER_DIGIT, INVALID_DIGIT, K_AXES_DIGIT, not_le] at hc
    cases hp : env.h3IsPentagon origin
    · rw [vertexNumForDirection_hex env origin d hp hc.1 hc.2.1]
      simp only [hp, Bool.false_eq_true, if_false, NUM_HEX_VERTS]
      omega
    · rw [vertexNumForDirection_pent env origin d hp hc.1 hc.2.1 (hc.2.2 hp)]
      simp only [hp, if_true, NUM_PENT_VERTS]
      omega

/-- The basic witness environment satisfies the external contracts. -/
theorem env0_ok : H3EnvOk env0 :=
  ⟨fun _ _ => Nat.lt_of_sub_eq_succ rfl, fun _ => rfl⟩

/-- C1: for every valid cell and every valid corner number `v` (0..5 for a
hexagon, 0..4 for a pentagon), mapping the corner to its neighbor direction
and back returns `v`: `vertexNumForDirection` and `directionForVertexNum`
are exact inverses on valid inputs, for every environment whose rotation
counts satisfy the spec's `[0,5]` contract. -/
theorem direction_vertex_inverse_law (env : H3Env) (cell : Nat) (v : Int)
    (hok : H3EnvOk env) (h0 : 0 ≤ v)
    (hv : v < (if env.h3IsPentagon cell then (NUM_PENT_VERTS : Int) else NUM_HEX_VERTS)) :
    vertexNumForDirection env cell (directionForVertexNum env cell v) = v := by
  obtain ⟨r, hr6, hreq⟩ : ∃ r, r < 6 ∧ vertexRotations env cell true = r :=
    ⟨_, vertexRotations_lt env cell true hok.rot_lt, rfl⟩
  obtain ⟨vn, rfl⟩ : ∃ vn : Nat, v = (vn : Int) := ⟨v.toNat, (Int.toNat_of_nonneg h0).symm⟩
  cases hp : env.h3IsPentagon cell
  · have hv6 : vn < 6 := by
      rw [hp] at hv
      simp only [Bool.false_eq_true, if_false, NUM_HEX_VERTS] at hv
      exact_mod_cast hv
    rw [directionForVertexNum_hex env cell _ hp (by positivity) (by exact_mod_cast hv6), hreq]
    have hcast : (((vn : Int) + (r : Int)) % 6).toNat = (vn + r) % 6 := by omega
    rw [hcast]
    have hk : (vn + r) % 6 < 6 := Nat.mod_lt _ (by norm_num)
    obtain ⟨hne0, hlt7⟩ := vertexNumToDirectionHex_valid _ hk
    rw [vertexNumForDirection_hex env cell _ hp hne0 hlt7, hreq,
      directionToVertexNumHex_leftInv _ hk]
    have : ((vn + r) % 6 + 6 - r) % 6 = vn := by
      interval_cases vn <;> interval_cases r <;> rfl
    rw [this]
  · have hv5 : vn < 5 := by
      rw [hp] at hv
      simp only [if_true, NUM_PENT_VERTS] at hv
      exact_mod_cast hv
    rw [directionForVertexNum_pent env cell _ hp (by positivity) (by exact_mod_cast hv5), hreq]
    have hcast : (((vn : Int) + (r : Int)) % 5).toNat = (vn + r) % 5 := by omega
    rw [hcast]
    have hk : (vn + r) % 5 < 5 := Nat.mod_lt _ (by norm_num)
    obtain ⟨hne0, hlt7, hne1⟩ := vertexNumToDirectionPent_valid _ hk
    rw [vertexNumForDirection_pent env cell _ hp hne0 hlt7 hne1, hreq,
      directionToVertexNumPent_leftInv _ hk]
    have : ((vn + r) % 5 + 5 - r) % 5 = vn := by
      interval_cases vn <;> interval_cases r <;> rfl
    rw [this]

/-- C1 witness: the inverse law evaluated at a concrete environment, cell
and corner number. -/
theorem direction_vertex_inverse_law_witness :
    vertexNumForDirection env0 0 (directionForVertexNum env0 0 0) = 0 :=
  direction_vertex_inverse_law env0 0 0 env0_ok (by decide) (by decide)

/-- C9: `vertexNumForDirection` returns the `INVALID_VERTEX_NUM` sentinel
exactly when the direction is the center digit, out of the enumerated
range, or the deleted K axis on a pentagon cell; on every other input it
returns a corner number in range for the cell's shape, and no other failure
exists. -/
theorem vertexNumForDirection_invalid_iff (env : H3Env) (origin : Nat) (direction : Nat)
    (hok : H3EnvOk env) :
    (vertexNumForDirection env origin direction = INVALID_VERTEX_NUM ↔
      (direction = CENTER_DIGIT ∨ INVALID_DIGIT ≤ direction ∨
        (env.h3IsPentagon origin = true ∧ direction = K_AXES_DIGIT))) ∧
    (vertexNumForDirection env origin direction ≠ INVALID_VERTEX_NUM →
      0 ≤ vertexNumForDirection env origin direction ∧
        vertexNumForDirection env origin direction <
          (if env.h3IsPentagon origin then (NUM_PENT_VERTS : Int) else NUM_HEX_VERTS)) := by
  have hr := hok.rot_lt
  refine ⟨⟨fun h => ?_, fun hc => ?_⟩, vertexNumForDirection_range env origin direction⟩
  · by_contra hc
    simp only [vertexNumForDirection] at h
    rw [if_neg hc] at h
    split at h <;> simp only [INVALID_VERTEX_NUM] at h <;> omega
  · simp only [vertexNumForDirection]
    rw [if_pos hc]

/-- C9 witness: the center digit yields the sentinel on a concrete input. -/
theorem vertexNumForDirection_invalid_iff_witness :
    vertexNumForDirection env0 0 CENTER_DIGIT = INVALID_VERTEX_NUM :=
  (vertexNumForDirection_invalid_iff env0 0 CENTER_DIGIT env0_ok).1.mpr (Or.inl rfl)

/-- C10: every base cell that `_isBaseCellPentagon` accepts has an entry in
the 12-entry `pentagonDirectionFaces` table, so the lookup loop of
`vertexRotations` always finds a match and the `dirFaces` local is never
left at its uninitialized value when the pentagon adjustment runs. -/
theorem pentagonDirectionFaces_covers_pentagons (b : Nat)
    (hb : specIsBaseCellPentagon b = true) :
    (findPentagonDirFaces b).isSome = true ∧ vrDirFaces b ≠ uninitializedDirFaces := by
  have hmem : b = 4 ∨ b = 14 ∨ b = 24 ∨ b = 38 ∨ b = 49 ∨ b = 58 ∨ b = 63 ∨
      b = 72 ∨ b = 83 ∨ b = 97 ∨ b = 107 ∨ b = 117 := by
    simpa [specIsBaseCellPentagon, List.contains_eq_any_beq, List.any_eq_true,
      Nat.beq_eq_true_eq] using hb
  rcases hmem with h | h | h | h | h | h | h | h | h | h | h | h <;> subst h <;>
    exact ⟨rfl, by decide⟩

/-- C10 witness: the coverage fact evaluated at pentagon base cell 4. -/
theorem pentagonDirectionFaces_covers_pentagons_witness :
    (findPentagonDirFaces 4).isSome = true ∧ vrDirFaces 4 ≠ uninitializedDirFaces :=
  pentagonDirectionFaces_covers_pentagons 4 (by decide)

/-- Witness environment contracts for the polar-pentagon adjustment. -/
theorem envC7_ok : H3EnvOk envC7 :=
  ⟨fun _ _ => Nat.lt_of_sub_eq_succ rfl, fun _ => rfl⟩

/-- C7: with pentagon adjustment on a pentagon base cell, when the current
projected face differs from the base cell's home face and the base cell is
a polar pentagon or the current face is the table's IK-axis entry, the
polar/IK block sets the running count to the base rotation plus exactly 1
(mod 6); the final result is in `[0,5]`, and when neither deleted-subsequence
correction fires it equals that adjusted count. -/
theorem vertexRotations_pentagon_polar_ik_adjust (env : H3Env) (cell : Nat)
    (hok : H3EnvOk env)
    (hpent : env.isBaseCellPentagon (env.h3GetBaseCell cell) = true)
    (hface : env.h3ToFace cell ≠ env.baseCellToFace (env.h3GetBaseCell cell))
    (hcond : env.isBaseCellPolarPentagon (env.h3GetBaseCell cell) = true ∨
      env.h3ToFace cell = (vrDirFaces (env.h3GetBaseCell cell)).faces.getD
        (IK_AXES_DIGIT - DIRECTION_INDEX_OFFSET) 0) :
    vrPentFirstAdjust env cell =
      (env.baseCellToCCWrot60 (env.h3GetBaseCell cell) (env.h3ToFace cell) + 1) % 6 ∧
    vertexRotations env cell true < 6 ∧
    (¬(env.h3LeadingNonZeroDigit cell = JK_AXES_DIGIT ∧
        env.h3ToFace cell = (vrDirFaces (env.h3GetBaseCell cell)).faces.getD
          (IK_AXES_DIGIT - DIRECTION_INDEX_OFFSET) 0) →
      ¬(env.h3LeadingNonZeroDigit cell = IK_AXES_DIGIT ∧
        env.h3ToFace cell = (vrDirFaces (env.h3GetBaseCell cell)).faces.getD
          (JK_AXES_DIGIT - DIRECTION_INDEX_OFFSET) 0) →
      vertexRotations env cell true =
        (env.baseCellToCCWrot60 (env.h3GetBaseCell cell) (env.h3ToFace cell) + 1) % 6) := by
  have hfirst : vrPentFirstAdjust env cell =
      (env.baseCellToCCWrot60 (env.h3GetBaseCell cell) (env.h3ToFace cell) + 1) % 6 := by
    simp only [vrPentFirstAdjust]
    rw [if_pos ⟨hface, hcond⟩]
  refine ⟨hfirst, vertexRotations_lt env cell true hok.rot_lt, fun hn1 hn2 => ?_⟩
  simp only [vertexRotations, Bool.true_and, hpent, if_true]
  rw [if_neg hn1, if_neg hn2]
  exact hfirst

/-- C7 witness: polar pentagon base cell 4 on a non-home face gets exactly
one extra CCW rotation. -/
theorem vertexRotations_pentagon_polar_ik_adjust_witness :
    vrPentFirstAdjust envC7 0 = 1 ∧ vertexRotations envC7 0 true = 1 := by
  have h := vertexRotations_pentagon_polar_ik_adjust envC7 0 envC7_ok (by decide)
    (by decide) (Or.inl (by decide))
  exact ⟨h.1.trans (by decide), (h.2.2 (by decide) (by decide)).trans (by decide)⟩

/-- C8: with pentagon adjustment on a pentagon base cell, a leading JK-axis
digit on the table's IK-axis face subtracts 1 (mod 6, as adding 5) from the
running rotation count, and a leading IK-axis digit on the table's JK-axis
face adds 1 (mod 6). -/
theorem vertexRotations_deleted_subsequence_adjust (env : H3Env) (cell : Nat)
    (hpent : env.isBaseCellPentagon (env.h3GetBaseCell cell) = true) :
    (env.h3LeadingNonZeroDigit cell = JK_AXES_DIGIT ∧
        env.h3ToFace cell = (vrDirFaces (env.h3GetBaseCell cell)).faces.getD
          (IK_AXES_DIGIT - DIRECTION_INDEX_OFFSET) 0 →
      vertexRotations env cell true = (vrPentFirstAdjust env cell + 5) % 6) ∧
    (env.h3LeadingNonZeroDigit cell = IK_AXES_DIGIT ∧
        env.h3ToFace cell = (vrDirFaces (env.h3GetBaseCell cell)).faces.getD
          (JK_AXES_DIGIT - DIRECTION_INDEX_OFFSET) 0 →
      vertexRotations env cell true = (vrPentFirstAdjust env cell + 1) % 6) := by
  constructor
  · intro hjk
    simp only [vertexRotations, Bool.true_and, hpent, if_true]
    rw [if_pos hjk]
  · intro hik
    simp only [vertexRotations, Bool.true_and, hpent, if_true]
    rw [if_neg (by simp only [JK_AXES_DIGIT, IK_AXES_DIGIT] at hik ⊢; omega), if_pos hik]

/-- C8 witness: pentagon base cell 4, leading digit JK, current face equal
to the IK-axis table face: the rotation count is decremented by 1 mod 6. -/
theorem vertexRotations_deleted_subsequence_adjust_witness :
    vertexRotations envC8 0 true = 5 := by
  have h := vertexRotations_deleted_subsequence_adjust envC8 0 (by decide)
  exact (h.1 ⟨rfl, by decide⟩).trans (by decide)

/-- The corner count of a cell is positive. -/
theorem gcvNumVerts_pos (env : H3Env) (origin : Nat) : 0 < gcvNumVerts env origin := by
  unfold gcvNumVerts NUM_PENT_VERTS NUM_HEX_VERTS
  split <;> omega

/-- The corner count of a cell, as the integer bound used by the direction
lookup guards. -/
theorem gcvNumVerts_eq (env : H3Env) (origin : Nat) :
    (gcvNumVerts env origin : Int) =
      (if env.h3IsPentagon origin then (NUM_PENT_VERTS : Int) else NUM_HEX_VERTS) := by
  unfold gcvNumVerts
  split <;> simp

/-- The left direction of a valid corner slot is usable. -/
theorem gcvLeft_valid (env : H3Env) (origin : Nat) (v : Int) (h0 : 0 ≤ v)
    (hv : v < (if env.h3IsPentagon origin then (NUM_PENT_VERTS : Int) else NUM_HEX_VERTS)) :
    gcvLeft env origin v ≠ INVALID_DIGIT :=
  directionForVertexNum_valid env origin v h0 hv

/-- The right direction is always usable: its argument is reduced into the
valid corner range by the modulus. -/
theorem gcvRight_valid (env : H3Env) (origin : Nat) (v : Int) :
    gcvRight env origin v ≠ INVALID_DIGIT := by
  have hn : (0 : Int) < (gcvNumVerts env origin : Int) := by
    exact_mod_cast gcvNumVerts_pos env origin
  unfold gcvRight
  apply directionForVertexNum_valid
  · exact Int.emod_nonneg _ (by omega)
  · rw [← gcvNumVerts_eq env origin]
    exact Int.emod_lt_of_pos _ hn

/-- A valid corner slot yields a non-null vertex identity. -/
theorem getCellVertex_ne_null (env : H3Env) (origin : Nat) (v : Int) (h0 : 0 ≤ v)
    (hv : v < (if env.h3IsPentagon origin then (NUM_PENT_VERTS : Int) else NUM_HEX_VERTS)) :
    getCellVertex env origin v ≠ H3_NULL := by
  unfold getCellVertex
  rw [if_neg (gcvLeft_valid env origin v h0 hv), if_neg (gcvRight_valid env origin v)]
  exact encodedVertex_ne_null _ _

/-- Corner slot 5 of a pentagon yields the null index. -/
theorem getCellVertex_pent_five (env : H3Env) (origin : Nat)
    (hp : env.h3IsPentagon origin = true) :
    getCellVertex env origin 5 = H3_NULL := by
  unfold getCellVertex
  rw [if_pos]
  unfold gcvLeft directionForVertexNum
  simp only [hp, if_true]
  rw [if_pos (by norm_num [NUM_PENT_VERTS])]

/-- The six slots of `getCellVertexes`, spelled out. -/
theorem getCellVertexes_eq (env : H3Env) (origin : Nat) :
    getCellVertexes env origin =
      [getCellVertex env origin 0, getCellVertex env origin 1, getCellVertex env origin 2,
       getCellVertex env origin 3, getCellVertex env origin 4, getCellVertex env origin 5] := by
  simp [getCellVertexes, NUM_HEX_VERTS, List.range_succ]

/-- C5: on any pentagon cell `getCellVertexes` returns exactly 5 non-null
vertex identities and exactly 1 null entry, the null being slot 5; on any
hexagon cell it returns 6 non-null entries. -/
theorem getCellVertexes_pentagon_slot_count (env : H3Env) (origin : Nat) :
    (env.h3IsPentagon origin = true →
      (getCellVertexes env origin).countP (fun h3 => h3 == H3_NULL) = 1 ∧
      (getCellVertexes env origin).getD 5 0 = H3_NULL ∧
      (getCellVertexes env origin).countP (fun h3 => h3 != H3_NULL) = 5) ∧
    (env.h3IsPentagon origin = false →
      (getCellVertexes env origin).countP (fun h3 => h3 != H3_NULL) = 6) := by
  constructor
  · intro hp
    have hb : (if env.h3IsPentagon origin then (NUM_PENT_VERTS : Int) else NUM_HEX_VERTS) = 5 := by
      rw [hp]
      norm_num [NUM_PENT_VERTS]
    have g0 := getCellVertex_ne_null env origin 0 (by norm_num) (by rw [hb]; norm_num)
    have g1 := getCellVertex_ne_null env origin 1 (by norm_num) (by rw [hb]; norm_num)
    have g2 := getCellVertex_ne_null env origin 2 (by norm_num) (by rw [hb]; norm_num)
    have g3 := getCellVertex_ne_null env origin 3 (by norm_num) (by rw [hb]; norm_num)
    have g4 := getCellVertex_ne_null env origin 4 (by norm_num) (by rw [hb]; norm_num)
    have g5 := getCellVertex_pent_five env origin hp
    simp only [H3_NULL] at g0 g1 g2 g3 g4 g5
    rw [getCellVertexes_eq]
    simp [List.countP_cons, g0, g1, g2, g3, g4, g5, H3_NULL]
  · intro hp
    have hb : (if env.h3IsPentagon origin then (NUM_PENT_VERTS : Int) else NUM_HEX_VERTS) = 6 := by
      rw [hp]
      norm_num [NUM_HEX_VERTS]
    have g0 := getCellVertex_ne_null env origin 0 (by norm_num) (by rw [hb]; norm_num)
    have g1 := getCellVertex_ne_null env origin 1 (by norm_num) (by rw [hb]; norm_num)
    have g2 := getCellVertex_ne_null env origin 2 (by norm_num) (by rw [hb]; norm_num)
    have g3 := getCellVertex_ne_null env origin 3 (by norm_num) (by rw [hb]; norm_num)
    have g4 := getCellVertex_ne_null env origin 4 (by norm_num) (by rw [hb]; norm_num)
    have g5 := getCellVertex_ne_null env origin 5 (by norm_num) (by rw [hb]; norm_num)
    simp only [H3_NULL] at g0 g1 g2 g3 g4 g5
    rw [getCellVertexes_eq]
    simp [List.countP_cons, g0, g1, g2, g3, g4, g5, H3_NULL]

/-- C5 witness: slot counts of a concrete pentagon cell. -/
theorem getCellVertexes_pentagon_slot_count_witness :
    (getCellVertexes envC5 7).countP (fun h3 => h3 == H3_NULL) = 1 ∧
    (getCellVertexes envC5 7).getD 5 0 = H3_NULL ∧
    (getCellVertexes envC5 7).countP (fun h3 => h3 != H3_NULL) = 5 :=
  (getCellVertexes_pentagon_slot_count envC5 7).1 (by decide)

/-- The computed owner is one of the three cells sharing the corner. -/
theorem gcvOwner_cases (env : H3Env) (origin : Nat) (v : Int) :
    gcvOwner env origin v = origin ∨
    gcvOwner env origin v = gcvLeftNeighbor env origin v ∨
    gcvOwner env origin v = gcvRightNeighbor env origin v := by
  rw [gcvOwner_eq_min]
  simp only [Nat.min_def]
  split_ifs <;> simp

/-- C2: for a valid (cell, corner-slot) pair where both neighbor directions
are defined, `getCellVertex` selects as owner the numerically smallest raw
packed index among the origin and its two stepped neighbors; when that
owner is the origin, the corner stored in the returned vertex identity is
the input slot unchanged.  The three cells are assumed to be in cell form
(cell mode tag, cleared reserved field), as every valid cell index is. -/
theorem getCellVertex_owner_min_and_origin_corner (env : H3Env) (origin : Nat) (v : Int)
    (hL : gcvLeft env origin v ≠ INVALID_DIGIT)
    (hR : gcvRight env origin v ≠ INVALID_DIGIT)
    (hformO : H3_GET_MODE origin = H3_HEXAGON_MODE ∧ H3_GET_RESERVED_BITS origin = 0)
    (hformL : H3_GET_MODE (gcvLeftNeighbor env origin v) = H3_HEXAGON_MODE ∧
      H3_GET_RESERVED_BITS (gcvLeftNeighbor env origin v) = 0)
    (hformR : H3_GET_MODE (gcvRightNeighbor env origin v) = H3_HEXAGON_MODE ∧
      H3_GET_RESERVED_BITS (gcvRightNeighbor env origin v) = 0) :
    vertexToOwner (getCellVertex env origin v) =
      min (min origin (gcvLeftNeighbor env origin v)) (gcvRightNeighbor env origin v) ∧
    (min (min origin (gcvLeftNeighbor env origin v)) (gcvRightNeighbor env origin v) = origin →
      (H3_GET_RESERVED_BITS (getCellVertex env origin v) : Int) = v) := by
  have hx : getCellVertex env origin v =
      H3_SET_RESERVED_BITS (H3_SET_MODE (gcvOwner env origin v) H3_VERTEX_MODE)
        (gcvOwnerVertexNum env origin v) := by
    unfold getCellVertex
    rw [if_neg hL, if_neg hR]
  have hmin := gcvOwner_eq_min env origin v
  have hform : H3_GET_MODE (gcvOwner env origin v) = H3_HEXAGON_MODE ∧
      H3_GET_RESERVED_BITS (gcvOwner env origin v) = 0 := by
    rcases gcvOwner_cases env origin v with h | h | h <;> rw [h]
    exacts [hformO, hformL, hformR]
  constructor
  · rw [hx, vertexToOwner_encode _ _ hform.1 hform.2]
    exact hmin
  · intro ho
    have howner : gcvOwner env origin v = origin := by
      rw [hmin]
      exact ho
    have hovn : gcvOwnerVertexNum env origin v = v := by
      simp only [gcvOwnerVertexNum]
      rw [if_neg (fun hne => hne howner)]
    have hbounds := directionForVertexNum_ne_invalid env origin v hL
    rcases hbounds with ⟨h0, hlt⟩
    have hv6 : v < 6 := by
      split at hlt <;> simp only [NUM_PENT_VERTS, NUM_HEX_VERTS] at hlt <;> omega
    rw [hx, getReserved_setReserved, hovn]
    omega

/-- C2 witness: a concrete origin in cell form whose two stepped neighbors
are itself, so it owns its own corner 0. -/
theorem getCellVertex_owner_min_and_origin_corner_witness :
    vertexToOwner (getCellVertex env0 (2 ^ 59) 0) = 2 ^ 59 ∧
    (H3_GET_RESERVED_BITS (getCellVertex env0 (2 ^ 59) 0) : Int) = 0 := by
  have h := getCellVertex_owner_min_and_origin_corner env0 (2 ^ 59) 0
    (by decide) (by decide) (by decide) (by decide) (by decide)
  exact ⟨h.1.trans (by decide), h.2 (by decide)⟩

/-- C3: in the general (non-fast-path) case of `getCellVertex`, when the
owner is the left neighbor the owner-frame corner is
`vertexNumForDirection(owner, dir) + 1`, wrapped to 0 exactly when the sum
reaches the owner's corner count (6 for a hexagon owner, 5 for a pentagon
owner); when the owner is the right neighbor it is exactly
`vertexNumForDirection(owner, dir)`, with no adjustment. -/
theorem getCellVertex_general_path_corner (env : H3Env) (origin : Nat) (v : Int)
    (hL : gcvLeft env origin v ≠ INVALID_DIGIT)
    (hR : gcvRight env origin v ≠ INVALID_DIGIT)
    (hne : gcvOwner env origin v ≠ origin)
    (hns : gcvIsSimpleCase env origin (gcvOwner env origin v) = false)
    (hge : 0 ≤ vertexNumForDirection env (gcvOwner env origin v)
      (env.directionForNeighbor (gcvOwner env origin v) origin)) :
    (gcvOwner env origin v = gcvLeftNeighbor env origin v →
      (H3_GET_RESERVED_BITS (getCellVertex env origin v) : Int) =
        (if vertexNumForDirection env (gcvOwner env origin v)
              (env.directionForNeighbor (gcvOwner env origin v) origin) + 1 =
            (if env.h3IsPentagon (gcvOwner env origin v) then (NUM_PENT_VERTS : Int)
              else NUM_HEX_VERTS) then 0
          else vertexNumForDirection env (gcvOwner env origin v)
              (env.directionForNeighbor (gcvOwner env origin v) origin) + 1)) ∧
    (gcvOwner env origin v ≠ gcvLeftNeighbor env origin v →
      gcvOwner env origin v = gcvRightNeighbor env origin v →
      (H3_GET_RESERVED_BITS (getCellVertex env origin v) : Int) =
        vertexNumForDirection env (gcvOwner env origin v)
          (env.directionForNeighbor (gcvOwner env origin v) origin)) := by
  have hx : getCellVertex env origin v =
      H3_SET_RESERVED_BITS (H3_SET_MODE (gcvOwner env origin v) H3_VERTEX_MODE)
        (gcvOwnerVertexNum env origin v) := by
    unfold getCellVertex
    rw [if_neg hL, if_neg hR]
  have hvnd := vertexNumForDirection_range env (gcvOwner env origin v)
    (env.directionForNeighbor (gcvOwner env origin v) origin)
    (by intro hc; rw [hc] at hge; simp [INVALID_VERTEX_NUM] at hge)
  constructor
  · intro hleft
    have hovn : gcvOwnerVertexNum env origin v =
        gcvGeneralLeftVertexNum env (gcvOwner env origin v) origin := by
      simp only [gcvOwnerVertexNum]
      rw [if_pos hne, if_pos hleft, if_neg (by simp [hns])]
    rw [hx, getReserved_setReserved, hovn]
    simp only [gcvGeneralLeftVertexNum]
    cases hpw : env.h3IsPentagon (gcvOwner env origin v)
    · rw [hpw] at hvnd
      simp only [Bool.false_eq_true, if_false, NUM_HEX_VERTS] at hvnd
      simp only [hpw, Bool.false_eq_true, false_and, false_or, if_false,
        NUM_HEX_VERTS, NUM_PENT_VERTS]
      split_ifs <;> omega
    · rw [hpw] at hvnd
      simp only [if_true, NUM_PENT_VERTS] at hvnd
      simp only [hpw, true_and, if_true, NUM_HEX_VERTS, NUM_PENT_VERTS]
      split_ifs <;> omega
  · intro hnl hright
    have hovn : gcvOwnerVertexNum env origin v =
        gcvGeneralRightVertexNum env (gcvOwner env origin v) origin := by
      simp only [gcvOwnerVertexNum]
      rw [if_pos hne, if_neg hnl, if_pos hright, if_neg (by simp [hns])]
    rw [hx, getReserved_setReserved, hovn]
    simp only [gcvGeneralRightVertexNum]
    have hlt : vertexNumForDirection env (gcvOwner env origin v)
        (env.directionForNeighbor (gcvOwner env origin v) origin) < 6 := by
      rcases hvnd with ⟨h1, h2⟩
      split at h2 <;> simp only [NUM_PENT_VERTS, NUM_HEX_VERTS] at h2 <;> omega
    omega

/-- C3 witness: an origin whose neighbors are both cell 0 on a different
face (so the general path runs); the owner is the left neighbor and the
returned corner is the second vertex of the shared edge. -/
theorem getCellVertex_general_path_corner_witness :
    (H3_GET_RESERVED_BITS (getCellVertex envC3 (2 ^ 59) 0) : Int) = 2 := by
  have h := getCellVertex_general_path_corner envC3 (2 ^ 59) 0
    (by decide) (by decide) (by decide) (by decide) (by decide)
  exact (h.1 (by decide)).trans (by decide)

/-- The left column of the fast-path table is rotation by 4. -/
theorem neighborVertexes_left (vn : Nat) (h : vn < 6) :
    (neighborVertexes vn).1 = (vn + 4) % 6 := by
  interval_cases vn <;> rfl

/-- The right column of the fast-path table is rotation by 2. -/
theorem neighborVertexes_right (vn : Nat) (h : vn < 6) :
    (neighborVertexes vn).2 = (vn + 2) % 6 := by
  interval_cases vn <;> rfl

/-- The opposite of a usable hexagon direction is usable. -/
theorem oppositeDirectionHex_valid (k : Nat) (hk : k < 6) :
    oppositeDirection (vertexNumToDirectionHex k) ≠ 0 ∧
      oppositeDirection (vertexNumToDirectionHex k) < 7 := by
  interval_cases k <;> decide

/-- Seen from the opposite side, the direction that leaves corner `k` is the
direction whose first corner is `k + 3` (mod 6). -/
theorem directionToVertexNumHex_oppTable (k : Nat) (hk : k < 6) :
    directionToVertexNumHex (oppositeDirection (vertexNumToDirectionHex k)) = (k + 3) % 6 := by
  interval_cases k <;> rfl

/-- C4: when the origin and the owner are both hexagons projecting to the
same face, and the external collaborators obey the distortion-free
adjacency contract (equal rotation counts, direction back to the origin
opposite to the step direction), the general direction-algebra computation
of `getCellVertex` produces the same owner-frame corner number as the fast
`neighborVertexes` table for both owner relations. -/
theorem getCellVertex_path_agreement (env : H3Env) (origin : Nat) (v : Int)
    (hok : H3EnvOk env)
    (hhexO : env.h3IsPentagon origin = false)
    (hhexW : env.h3IsPentagon (gcvOwner env origin v) = false)
    (_hface : env.h3ToFace origin = env.h3ToFace (gcvOwner env origin v))
    (hrot : vertexRotations env (gcvOwner env origin v) true = vertexRotations env origin true)
    (h0 : 0 ≤ v) (h6 : v < 6) :
    (env.directionForNeighbor (gcvOwner env origin v) origin =
        oppositeDirection (gcvLeft env origin v) →
      gcvGeneralLeftVertexNum env (gcvOwner env origin v) origin =
        ((neighborVertexes v.toNat).1 : Int)) ∧
    (env.directionForNeighbor (gcvOwner env origin v) origin =
        oppositeDirection (gcvRight env origin v) →
      gcvGeneralRightVertexNum env (gcvOwner env origin v) origin =
        ((neighborVertexes v.toNat).2 : Int)) := by
  obtain ⟨r, hr6, hreq⟩ : ∃ r, r < 6 ∧ vertexRotations env origin true = r :=
    ⟨_, vertexRotations_lt env origin true hok.rot_lt, rfl⟩
  obtain ⟨vn, rfl⟩ : ∃ vn : Nat, v = (vn : Int) := ⟨v.toNat, (Int.toNat_of_nonneg h0).symm⟩
  have hvn : vn < 6 := by exact_mod_cast h6
  rw [Int.toNat_natCast]
  constructor
  · intro hdir
    have hgl : gcvLeft env origin (vn : Int) = vertexNumToDirectionHex ((vn + r) % 6) := by
      simp only [gcvLeft]
      rw [directionForVertexNum_hex env origin _ hhexO (by positivity) (by exact_mod_cast hvn),
        hreq]
      congr 1
    have hk : (vn + r) % 6 < 6 := Nat.mod_lt _ (by norm_num)
    obtain ⟨ho0, ho7⟩ := oppositeDirectionHex_valid _ hk
    simp only [gcvGeneralLeftVertexNum]
    rw [hdir, hgl, vertexNumForDirection_hex env _ _ hhexW ho0 ho7, hrot, hreq,
      directionToVertexNumHex_oppTable _ hk, neighborVertexes_left vn hvn]
    simp only [hhexW, Bool.false_eq_true, false_and, false_or, NUM_HEX_VERTS, NUM_PENT_VERTS]
    interval_cases vn <;> interval_cases r <;> decide
  · intro hdir
    have hgr : gcvRight env origin (vn : Int) =
        vertexNumToDirectionHex (((vn + 5) % 6 + r) % 6) := by
      simp only [gcvRight, gcvNumVerts, hhexO, Bool.false_eq_true, if_false,
        NUM_HEX_VERTS, Nat.cast_ofNat]
      rw [show ((vn : Int) - 1 + 6) % 6 = (((vn + 5) % 6 : Nat) : Int) by omega,
        directionForVertexNum_hex env origin _ hhexO (by positivity)
          (by exact_mod_cast Nat.mod_lt _ (by norm_num)),
        hreq]
      congr 1
    have hk : ((vn + 5) % 6 + r) % 6 < 6 := Nat.mod_lt _ (by norm_num)
    obtain ⟨ho0, ho7⟩ := oppositeDirectionHex_valid _ hk
    simp only [gcvGeneralRightVertexNum]
    rw [hdir, hgr, vertexNumForDirection_hex env _ _ hhexW ho0 ho7, hrot, hreq,
      directionToVertexNumHex_oppTable _ hk, neighborVertexes_right vn hvn]
    interval_cases vn <;> interval_cases r <;> rfl

/-- Witness environment contracts for path agreement. -/
theorem envC4_ok : H3EnvOk envC4 :=
  ⟨fun _ _ => Nat.lt_of_sub_eq_succ rfl, fun _ => rfl⟩

/-- C4 witness: both paths produce corner 4 for the left relation at a
concrete same-face hexagon pair. -/
theorem getCellVertex_path_agreement_witness :
    gcvGeneralLeftVertexNum envC4 (gcvOwner envC4 (2 ^ 59) 0) (2 ^ 59) = 4 := by
  have h := getCellVertex_path_agreement envC4 (2 ^ 59) 0 envC4_ok
    (by decide) (by decide) (by decide) (by decide) (by decide) (by decide)
  exact (h.1 (by decide)).trans (by decide)

/-- When the origin owns the corner, the stored corner number is the input
slot unchanged. -/
theorem gcvOwnerVertexNum_of_owner_origin (env : H3Env) (origin : Nat) (v : Int)
    (h : gcvOwner env origin v = origin) :
    gcvOwnerVertexNum env origin v = v := by
  simp only [gcvOwnerVertexNum]
  rw [if_neg (fun hne => hne h)]

/-- C6: for every vertex identity produced by `getCellVertex` from a valid
slot, decoding it (owner = packed value with the mode tag reset to cell and
the reserved field cleared, corner = reserved field) and reapplying
`getCellVertex` on the owner at that corner returns the same identity:
canonicalization is idempotent.  The owner is assumed to be in cell form
and to be its own canonical owner at the resolved corner (the spec's
cross-consistency invariant for the external neighbor stepping). -/
theorem getCellVertex_round_trip (env : H3Env) (origin : Nat) (v : Int)
    (hL : gcvLeft env origin v ≠ INVALID_DIGIT)
    (hR : gcvRight env origin v ≠ INVALID_DIGIT)
    (hform : H3_GET_MODE (gcvOwner env origin v) = H3_HEXAGON_MODE ∧
      H3_GET_RESERVED_BITS (gcvOwner env origin v) = 0)
    (hovn0 : 0 ≤ gcvOwnerVertexNum env origin v)
    (hovn : gcvOwnerVertexNum env origin v <
      (if env.h3IsPentagon (gcvOwner env origin v) then (NUM_PENT_VERTS : Int)
        else NUM_HEX_VERTS))
    (hmin : gcvOwner env (vertexToOwner (getCellVertex env origin v))
        ((H3_GET_RESERVED_BITS (getCellVertex env origin v) : Int)) =
      vertexToOwner (getCellVertex env origin v)) :
    getCellVertex env (vertexToOwner (getCellVertex env origin v))
        ((H3_GET_RESERVED_BITS (getCellVertex env origin v) : Int)) =
      getCellVertex env origin v := by
  have hovn6 : gcvOwnerVertexNum env origin v < 6 := by
    split at hovn <;> simp only [NUM_PENT_VERTS, NUM_HEX_VERTS] at hovn <;> omega
  have hx : getCellVertex env origin v =
      H3_SET_RESERVED_BITS (H3_SET_MODE (gcvOwner env origin v) H3_VERTEX_MODE)
        (gcvOwnerVertexNum env origin v) := by
    unfold getCellVertex
    rw [if_neg hL, if_neg hR]
  have hw : vertexToOwner (getCellVertex env origin v) = gcvOwner env origin v := by
    rw [hx]
    exact vertexToOwner_encode _ _ hform.1 hform.2
  have hnv : ((H3_GET_RESERVED_BITS (getCellVertex env origin v) : Nat) : Int) =
      gcvOwnerVertexNum env origin v := by
    rw [hx, getReserved_setReserved]
    omega
  rw [hw, hnv] at hmin ⊢
  have hL2 : gcvLeft env (gcvOwner env origin v) (gcvOwnerVertexNum env origin v) ≠
      INVALID_DIGIT :=
    gcvLeft_valid env _ _ hovn0 hovn
  have hR2 := gcvRight_valid env (gcvOwner env origin v) (gcvOwnerVertexNum env origin v)
  have hx2 : getCellVertex env (gcvOwner env origin v) (gcvOwnerVertexNum env origin v) =
      H3_SET_RESERVED_BITS
        (H3_SET_MODE (gcvOwner env (gcvOwner env origin v) (gcvOwnerVertexNum env origin v))
          H3_VERTEX_MODE)
        (gcvOwnerVertexNum env (gcvOwner env origin v) (gcvOwnerVertexNum env origin v)) := by
    unfold getCellVertex
    rw [if_neg hL2, if_neg hR2]
  rw [hx2, gcvOwnerVertexNum_of_owner_origin env _ _ hmin, hmin, hx]

/-- C6 witness: round trip on a concrete cell that owns its own corner 0. -/
theorem getCellVertex_round_trip_witness :
    getCellVertex env0 (vertexToOwner (getCellVertex env0 (2 ^ 59) 0))
        ((H3_GET_RESERVED_BITS (getCellVertex env0 (2 ^ 59) 0) : Int)) =
      getCellVertex env0 (2 ^ 59) 0 :=
  getCellVertex_round_trip env0 (2 ^ 59) 0 (by decide) (by decide) (by decide)
    (by decide) (by decide) (by decide)
